import Mathlib

/-!
# Verification of `generate_large_csv.py`

Shallow embedding of the CSV-generator script. The script (21 lines of
Python) builds column labels `col1..colC`, writes a header row and `R`
data rows through `csv.writer` (excel dialect: delimiter `,`, quote
char `"`, minimal quoting, line terminator `"\r\n"`, and the file is
opened with `newline=''` so no newline translation happens), prints a
success message, and finally writes a marker file `<output>.done`
containing `CSV generation completed.\n` through a default text-mode
handle (which translates `'\n'` to the platform line separator).
-/

namespace GenerateLargeCsv

/-- `num_rows = 1_000_000` (line 4 of the script). -/
def num_rows : Nat := 1000000

/-- `num_cols = 10` (line 5 of the script). -/
def num_cols : Nat := 10

/-- `output_file = f'{num_rows}_large_test.csv'` (line 6), generalised over
the row-count constant. -/
def outputPath (R : Nat) : String := toString R ++ "_large_test.csv"

/-- `columns = [f'col{i+1}' for i in range(num_cols)]` (line 7). -/
def columns (C : Nat) : List String :=
  (List.range C).map (fun i => "col" ++ toString (i + 1))

/-- `row = [f'data_{col}_{row_num}' for col in range(1, num_cols + 1)]`
(line 14). -/
def rowFields (C r : Nat) : List String :=
  (List.range' 1 C).map (fun c => "data_" ++ toString c ++ "_" ++ toString r)

/-- `csv.writer` (excel dialect, QUOTE_MINIMAL) quotes a field iff it
contains the delimiter `,`, the quote char `"`, or a character of the
line terminator `"\r\n"`. -/
def needsQuote (s : String) : Bool :=
  s.data.any (fun ch => ch == ',' || ch == '"' || ch == '\r' || ch == '\n')

/-- Quote-char escaping used by `csv.writer`: each `"` is doubled. -/
def escapeQuotes (s : String) : String :=
  String.join (s.data.map (fun ch => if ch = '"' then "\"\"" else String.singleton ch))

/-- One field as emitted by `csv.writer` under QUOTE_MINIMAL. -/
def quoteField (s : String) : String :=
  if needsQuote s then "\"" ++ escapeQuotes s ++ "\"" else s

/-- Join a list of strings with a separator (the delimiter join performed
by `csv.writer`). -/
def joinSep (sep : String) : List String → String
  | [] => ""
  | [f] => f
  | f :: g :: fs => f ++ sep ++ joinSep sep (g :: fs)

/-- Concatenation of a list of strings (sequential file writes). -/
def concatAll : List String → String
  | [] => ""
  | s :: ss => s ++ concatAll ss

/-- The text of one row, without its terminator. -/
def rowString (fields : List String) : String :=
  joinSep "," (fields.map quoteField)

/-- `writer.writerow(fields)`: the bytes one call appends to the file.
The excel dialect terminates every row with `"\r\n"`, and `newline=''`
on the handle means no translation is applied. -/
def writeRow (fields : List String) : String :=
  rowString fields ++ "\r\n"

/-- The sequence of writes performed on the output file (lines 12-15):
the header row, then one row per `row_num in range(1, num_rows + 1)`. -/
def writesList (R C : Nat) : List String :=
  writeRow (columns C) :: (List.range' 1 R).map (fun r => writeRow (rowFields C r))

/-- The full content of the output file on a successful run. -/
def outputFile (R C : Nat) : String := concatAll (writesList R C)

/-- The output file content after the first `k` row-writes succeeded and
write `k` raised an I/O error (write `0` is the header). -/
def outputUpTo (R C k : Nat) : String := concatAll ((writesList R C).take k)

/-- The logical lines of the output file, without terminators. -/
def outputLines (R C : Nat) : List String :=
  rowString (columns C) :: (List.range' 1 R).map (fun r => rowString (rowFields C r))

/-- The success message printed on line 17 of the script. -/
def successMsg (R C : Nat) : String :=
  "CSV file \"" ++ outputPath R ++ "\" with " ++ toString R ++ " rows and "
    ++ toString C ++ " columns generated successfully."

/-- `f'{output_file}.done'` (line 20). -/
def markerPath (p : String) : String := p ++ ".done"

/-- The string passed to `donefile.write` on line 21. -/
def markerText : String := "CSV generation completed.\n"

/-- Text-mode newline translation (`open(..., 'w')` with default
`newline=None`): every `'\n'` written is replaced by the platform line
separator. -/
def translateNL (linesep : String) (s : String) : String :=
  concatAll (s.data.map (fun ch => if ch = '\n' then linesep else String.singleton ch))

/-- The on-disk content of the marker file on a platform whose line
separator is `linesep`. -/
def markerContent (linesep : String) : String := translateNL linesep markerText

/-- The spec's reading of the output file: each logical line followed by
the terminator `term` (the spec says `term` is the platform-appropriate
line terminator). -/
def outputFileWithTerminator (term : String) (R C : Nat) : String :=
  concatAll ((outputLines R C).map (fun l => l ++ term))

/-! ## Event trace and file-system model -/

/-- Observable events of one run, in program order. -/
inductive Event : Type where
  | openOut : Event
  | writeOut : String → Event
  | closeOut : Event
  | printMsg : String → Event
  | openMarker : Event
  | writeMarker : String → Event
  | closeMarker : Event
deriving DecidableEq

/-- Recognisers for the parameterless interesting events. -/
def isCloseOut : Event → Bool
  | Event.closeOut => true
  | _ => false

def isOpenMarker : Event → Bool
  | Event.openMarker => true
  | _ => false

def isPrintMsg : Event → Bool
  | Event.printMsg _ => true
  | _ => false

/-- The events of a successful run, in the order the script performs
them: open the output file, write the header and the `R` rows, close it
(end of the `with` block after line 15), print the message (line 17),
then open, write and close the marker file (lines 20-21). -/
def preEvents (R C : Nat) : List Event :=
  Event.openOut :: Event.writeOut (writeRow (columns C)) ::
    (List.range' 1 R).map (fun r => Event.writeOut (writeRow (rowFields C r)))

def tailEvents (R C : Nat) : List Event :=
  [Event.closeOut, Event.printMsg (successMsg R C), Event.openMarker,
   Event.writeMarker markerText, Event.closeMarker]

def trace (R C : Nat) : List Event := preEvents R C ++ tailEvents R C

/-- Index of the first element satisfying `p`. -/
def firstPos (p : Event → Bool) : List Event → Option Nat
  | [] => none
  | e :: es => if p e then some 0 else (firstPos p es).map (· + 1)

/-- File-system state visible to the script: content of the output file,
content of the marker file, and the lines printed to stdout. -/
structure FSState where
  output : Option String
  marker : Option String
  printed : List String
deriving DecidableEq

/-- The state after a run with no I/O error: both files are overwritten
with deterministic content and the success message is printed. -/
def runOk (R C : Nat) (linesep : String) (fs : FSState) : FSState :=
  { output := some (outputFile R C),
    marker := some (markerContent linesep),
    printed := fs.printed ++ [successMsg R C] }

/-- One run of the script. `err = some k` (for `k ≤ R`, the index of an
output-file write, `0` being the header) means that write raises an I/O
error: the exception propagates, so the run stops with a partial output
file, nothing printed, and the marker file untouched. The returned
`Bool` records whether the marker file was created by this run. -/
def runGen (R C : Nat) (linesep : String) (err : Option Nat) (fs : FSState) :
    FSState × Bool :=
  match err with
  | some k =>
    if k ≤ R then
      ({ fs with output := some (outputUpTo R C k) }, false)
    else
      (runOk R C linesep fs, true)
  | none => (runOk R C linesep fs, true)

/-! ## Helper lemmas: decimal representations contain only digits -/

theorem digitChar_isDigit {d : Nat} (h : d < 10) : (Nat.digitChar d).isDigit = true := by
  interval_cases d <;> decide

theorem mem_toDigitsCore {f n : Nat} {ds : List Char} {c : Char}
    (hc : c ∈ Nat.toDigitsCore 10 f n ds) : c ∈ ds ∨ c.isDigit = true := by
  induction f generalizing n ds with
  | zero => exact Or.inl hc
  | succ f ih =>
    unfold Nat.toDigitsCore at hc
    by_cases h10 : n / 10 = 0
    · rw [if_pos h10] at hc
      rcases List.mem_cons.mp hc with h | h
      · exact Or.inr (h ▸ digitChar_isDigit (Nat.mod_lt _ (by norm_num)))
      · exact Or.inl h
    · rw [if_neg h10] at hc
      rcases ih hc with h | h
      · rcases List.mem_cons.mp h with h' | h'
        · exact Or.inr (h' ▸ digitChar_isDigit (Nat.mod_lt _ (by norm_num)))
        · exact Or.inl h'
      · exact Or.inr h

theorem toString_nat_isDigit (n : Nat) {c : Char} (hc : c ∈ (toString n).data) :
    c.isDigit = true := by
  have h : (toString n).data = Nat.toDigitsCore 10 (n + 1) n [] := rfl
  rw [h] at hc
  rcases mem_toDigitsCore hc with h' | h'
  · cases h'
  · exact h'

/-- A character is CSV-clean when it is none of the delimiter, the quote
char, and the two line-terminator characters. -/
def CleanChar (c : Char) : Prop := c ≠ ',' ∧ c ≠ '"' ∧ c ≠ '\r' ∧ c ≠ '\n'

instance (c : Char) : Decidable (CleanChar c) :=
  inferInstanceAs (Decidable (c ≠ ',' ∧ c ≠ '"' ∧ c ≠ '\r' ∧ c ≠ '\n'))

theorem cleanChar_of_isDigit {c : Char} (h : c.isDigit = true) : CleanChar c := by
  refine ⟨?_, ?_, ?_, ?_⟩ <;> rintro rfl <;> exact absurd h (by decide)

theorem colLabel_clean (i : Nat) : ∀ c ∈ ("col" ++ toString (i + 1)).data, CleanChar c := by
  intro c hc
  rw [String.data_append] at hc
  rcases List.mem_append.mp hc with h | h
  · exact (by decide : ∀ c ∈ "col".data, CleanChar c) c h
  · exact cleanChar_of_isDigit (toString_nat_isDigit _ h)

theorem dataCell_clean (k r : Nat) :
    ∀ c ∈ ("data_" ++ toString k ++ "_" ++ toString r).data, CleanChar c := by
  intro c hc
  rw [String.data_append, String.data_append, String.data_append] at hc
  rcases List.mem_append.mp hc with h | h
  · rcases List.mem_append.mp h with h' | h'
    · rcases List.mem_append.mp h' with h'' | h''
      · exact (by decide : ∀ c ∈ "data_".data, CleanChar c) c h''
      · exact cleanChar_of_isDigit (toString_nat_isDigit _ h'')
    · exact (by decide : ∀ c ∈ "_".data, CleanChar c) c h'
  · exact cleanChar_of_isDigit (toString_nat_isDigit _ h)

theorem needsQuote_eq_false {s : String} (h : ∀ c ∈ s.data, CleanChar c) :
    needsQuote s = false := by
  unfold needsQuote
  rw [List.any_eq_false]
  intro c hc
  obtain ⟨h1, h2, h3, h4⟩ := h c hc
  simp [h1, h2, h3, h4]

theorem quoteField_eq_self {s : String} (h : ∀ c ∈ s.data, CleanChar c) :
    quoteField s = s := by
  unfold quoteField
  rw [needsQuote_eq_false h]
  rfl

/-- Every column label is a clean field. -/
theorem columns_clean (C : Nat) : ∀ s ∈ columns C, ∀ c ∈ s.data, CleanChar c := by
  intro s hs
  unfold columns at hs
  rcases List.mem_map.mp hs with ⟨i, _, rfl⟩
  exact colLabel_clean i

/-- Every data cell is a clean field. -/
theorem rowFields_clean (C r : Nat) : ∀ s ∈ rowFields C r, ∀ c ∈ s.data, CleanChar c := by
  intro s hs
  unfold rowFields at hs
  rcases List.mem_map.mp hs with ⟨k, _, rfl⟩
  exact dataCell_clean k r

theorem map_quoteField_of_clean {l : List String}
    (h : ∀ s ∈ l, ∀ c ∈ s.data, CleanChar c) : l.map quoteField = l := by
  have h' : ∀ s ∈ l, quoteField s = s := fun s hs => quoteField_eq_self (h s hs)
  exact (List.map_congr_left h').trans (List.map_id' l)

theorem rowString_of_clean {l : List String}
    (h : ∀ s ∈ l, ∀ c ∈ s.data, CleanChar c) : rowString l = joinSep "," l := by
  unfold rowString
  rw [map_quoteField_of_clean h]

/-! ## Helper lemmas: characters of joins and concatenations -/

theorem mem_joinSep {sep : String} {l : List String} {c : Char}
    (hc : c ∈ (joinSep sep l).data) : c ∈ sep.data ∨ ∃ s ∈ l, c ∈ s.data := by
  induction l with
  | nil => cases hc
  | cons f fs ih =>
    cases fs with
    | nil => exact Or.inr ⟨f, List.mem_singleton.mpr rfl, hc⟩
    | cons g gs =>
      rw [show joinSep sep (f :: g :: gs) = f ++ sep ++ joinSep sep (g :: gs) from rfl,
        String.data_append, String.data_append] at hc
      rcases List.mem_append.mp hc with h | h
      · rcases List.mem_append.mp h with h' | h'
        · exact Or.inr ⟨f, List.mem_cons_self .., h'⟩
        · exact Or.inl h'
      · rcases ih h with h' | ⟨s, hs, hcs⟩
        · exact Or.inl h'
        · exact Or.inr ⟨s, List.mem_cons_of_mem _ hs, hcs⟩

theorem mem_concatAll {l : List String} {c : Char}
    (hc : c ∈ (concatAll l).data) : ∃ s ∈ l, c ∈ s.data := by
  induction l with
  | nil => cases hc
  | cons f fs ih =>
    rw [show concatAll (f :: fs) = f ++ concatAll fs from rfl, String.data_append] at hc
    rcases List.mem_append.mp hc with h | h
    · exact ⟨f, List.mem_cons_self .., h⟩
    · rcases ih h with ⟨s, hs, hcs⟩
      exact ⟨s, List.mem_cons_of_mem _ hs, hcs⟩

/-- Characters of a row built from clean fields: the delimiter or a
clean character. In particular no quote char and no CR/LF. -/
theorem rowString_chars {l : List String} (h : ∀ s ∈ l, ∀ c ∈ s.data, CleanChar c) :
    ∀ c ∈ (rowString l).data, c ≠ '"' ∧ c ≠ '\r' ∧ c ≠ '\n' := by
  intro c hc
  rw [rowString_of_clean h] at hc
  rcases mem_joinSep hc with h' | ⟨s, hs, hcs⟩
  · exact (by decide : ∀ c ∈ (",").data, c ≠ '"' ∧ c ≠ '\r' ∧ c ≠ '\n') c h'
  · exact (h s hs c hcs).2

/-- Every logical line of the output file is free of quote chars and of
the terminator characters CR and LF. -/
theorem outputLines_chars (R C : Nat) :
    ∀ l ∈ outputLines R C, ∀ c ∈ l.data, c ≠ '"' ∧ c ≠ '\r' ∧ c ≠ '\n' := by
  intro l hl
  unfold outputLines at hl
  rcases List.mem_cons.mp hl with h | h
  · subst h; exact rowString_chars (columns_clean C)
  · rcases List.mem_map.mp h with ⟨r, _, rfl⟩
    exact rowString_chars (rowFields_clean C r)

/-! ## Structural lemmas about the output file -/

theorem writesList_eq_map (R C : Nat) :
    writesList R C = (outputLines R C).map (fun l => l ++ "\r\n") := by
  unfold writesList outputLines writeRow
  simp [List.map_map, Function.comp]

theorem outputFile_eq_terminated (R C : Nat) :
    outputFile R C = outputFileWithTerminator "\r\n" R C := by
  rw [outputFile, writesList_eq_map, outputFileWithTerminator]

theorem outputLines_length (R C : Nat) : (outputLines R C).length = R + 1 := by
  unfold outputLines
  simp

theorem columns_length (C : Nat) : (columns C).length = C := by
  unfold columns
  simp

theorem columns_getElem? {C i : Nat} (h : i < C) :
    (columns C)[i]? = some ("col" ++ toString (i + 1)) := by
  unfold columns
  rw [List.getElem?_map, List.getElem?_range h]
  rfl

theorem rowFields_length (C r : Nat) : (rowFields C r).length = C := by
  unfold rowFields
  simp

theorem rowFields_getElem? {C r c : Nat} (h1 : 1 ≤ c) (h2 : c ≤ C) :
    (rowFields C r)[c - 1]? = some ("data_" ++ toString c ++ "_" ++ toString r) := by
  unfold rowFields
  rw [List.getElem?_map, List.getElem?_range' 1 1 (by omega)]
  have : 1 + 1 * (c - 1) = c := by omega
  rw [this]
  rfl

theorem outputLines_getElem? {R C r : Nat} (h1 : 1 ≤ r) (h2 : r ≤ R) :
    (outputLines R C)[r]? = some (rowString (rowFields C r)) := by
  unfold outputLines
  obtain ⟨m, rfl⟩ : ∃ m, r = m + 1 := ⟨r - 1, by omega⟩
  rw [List.getElem?_cons_succ, List.getElem?_map, List.getElem?_range' 1 1 (by omega)]
  have : 1 + 1 * m = m + 1 := by omega
  rw [this]
  rfl

/-! ## Lemmas about event positions in the trace -/

theorem firstPos_append {p : Event → Bool} {l1 l2 : List Event} {n : Nat}
    (h1 : ∀ e ∈ l1, p e = false) (h2 : firstPos p l2 = some n) :
    firstPos p (l1 ++ l2) = some (l1.length + n) := by
  induction l1 with
  | nil => simpa using h2
  | cons e es ih =>
    have hpe : p e = false := h1 e (List.mem_cons_self ..)
    have ih' := ih (fun x hx => h1 x (List.mem_cons_of_mem _ hx))
    rw [List.cons_append]
    unfold firstPos
    rw [hpe, ih']
    simp
    omega

theorem preEvents_no_markers (R C : Nat) :
    ∀ e ∈ preEvents R C,
      isCloseOut e = false ∧ isOpenMarker e = false ∧ isPrintMsg e = false := by
  intro e he
  unfold preEvents at he
  rcases List.mem_cons.mp he with rfl | he
  · exact ⟨rfl, rfl, rfl⟩
  rcases List.mem_cons.mp he with rfl | he
  · exact ⟨rfl, rfl, rfl⟩
  rcases List.mem_map.mp he with ⟨r, _, rfl⟩
  exact ⟨rfl, rfl, rfl⟩

theorem preEvents_length (R C : Nat) : (preEvents R C).length = R + 2 := by
  unfold preEvents
  simp only [List.length_cons, List.length_map, List.length_range']

theorem firstPos_closeOut (R C : Nat) :
    firstPos isCloseOut (trace R C) = some (R + 2) := by
  have h := firstPos_append (fun e he => (preEvents_no_markers R C e he).1)
    (rfl : firstPos isCloseOut (tailEvents R C) = some 0)
  rw [trace, h, preEvents_length]

theorem firstPos_printMsg (R C : Nat) :
    firstPos isPrintMsg (trace R C) = some (R + 3) := by
  have h := firstPos_append (fun e he => (preEvents_no_markers R C e he).2.2)
    (rfl : firstPos isPrintMsg (tailEvents R C) = some 1)
  rw [trace, h, preEvents_length]
  rfl

theorem firstPos_openMarker (R C : Nat) :
    firstPos isOpenMarker (trace R C) = some (R + 4) := by
  have h := firstPos_append (fun e he => (preEvents_no_markers R C e he).2.1)
    (rfl : firstPos isOpenMarker (tailEvents R C) = some 2)
  rw [trace, h, preEvents_length]
  rfl

/-! ## The marker file content under newline translation -/

theorem concatAll_append (l1 l2 : List String) :
    concatAll (l1 ++ l2) = concatAll l1 ++ concatAll l2 := by
  induction l1 with
  | nil => exact (String.empty_append _).symm
  | cons s ss ih =>
    show s ++ concatAll (ss ++ l2) = (s ++ concatAll ss) ++ concatAll l2
    rw [ih, String.append_assoc]

theorem concatAll_translate_no_newline (linesep : String) (l : List Char)
    (h : ∀ c ∈ l, c ≠ '\n') :
    concatAll (l.map (fun ch => if ch = '\n' then linesep else String.singleton ch)) =
      String.mk l := by
  induction l with
  | nil => rfl
  | cons c cs ih =>
    have hc : c ≠ '\n' := h c (List.mem_cons_self ..)
    rw [List.map_cons]
    show (if c = '\n' then linesep else String.singleton c) ++ _ = _
    rw [if_neg hc, ih (fun x hx => h x (List.mem_cons_of_mem _ hx))]
    rfl

theorem markerContent_eq (linesep : String) :
    markerContent linesep = "CSV generation completed." ++ linesep := by
  have h : markerText.data = "CSV generation completed.".data ++ ['\n'] := rfl
  unfold markerContent translateNL
  rw [h, List.map_append,
    concatAll_append, concatAll_translate_no_newline _ _ (by decide)]
  have h2 : concatAll (['\n'].map
      (fun ch => if ch = '\n' then linesep else String.singleton ch)) = linesep := by
    rw [List.map_cons, List.map_nil]
    show (if ('\n' : Char) = '\n' then linesep else String.singleton '\n') ++ "" = linesep
    rw [if_pos rfl, String.append_empty]
  rw [h2]

/-! ## Claim theorems -/

/-- C1: for every row count `R ≥ 0` and column count `C ≥ 0`, the output
file is exactly the concatenation of `R + 1` terminated lines: one header
line that is the comma-separated join of the `C` labels `col1,...,colC`
in order (no label contains a comma), followed by `R` data rows; no line
contains a terminator character, so this line decomposition is unique. -/
theorem C1_output_line_structure (R C : Nat) :
    outputFile R C = concatAll ((outputLines R C).map (fun l => l ++ "\r\n"))
    ∧ (outputLines R C).length = R + 1
    ∧ (outputLines R C).head? = some (rowString (columns C))
    ∧ rowString (columns C) = joinSep "," (columns C)
    ∧ (columns C).length = C
    ∧ (∀ i, i < C → (columns C)[i]? = some ("col" ++ toString (i + 1)))
    ∧ (∀ f ∈ columns C, ∀ c ∈ f.data, c ≠ ',')
    ∧ (∀ l ∈ outputLines R C, ∀ c ∈ l.data, c ≠ '\r' ∧ c ≠ '\n') := by
  refine ⟨outputFile_eq_terminated R C, outputLines_length R C, rfl,
    rowString_of_clean (columns_clean C), columns_length C,
    fun i hi => columns_getElem? hi,
    fun f hf c hc => (columns_clean C f hf c hc).1,
    fun l hl c hc => ⟨(outputLines_chars R C l hl c hc).2.1,
      (outputLines_chars R C l hl c hc).2.2⟩⟩

theorem C1_output_line_structure_witness :
    (outputLines 3 2).length = 3 + 1
    ∧ (columns 2)[1]? = some ("col" ++ toString (1 + 1)) :=
  ⟨(C1_output_line_structure 3 2).2.1,
   (C1_output_line_structure 3 2).2.2.2.2.2.1 1 (by decide)⟩

/-- C2: for `1 ≤ r ≤ R` and `1 ≤ c ≤ C`, the `r`-th line of the output
file (0 being the header) is the comma-separated join of the row's
fields, and its `c`-th field is the literal string `data_{c}_{r}`. -/
theorem C2_data_cell_content (R C r c : Nat)
    (hr1 : 1 ≤ r) (hr2 : r ≤ R) (hc1 : 1 ≤ c) (hc2 : c ≤ C) :
    (outputLines R C)[r]? = some (rowString (rowFields C r))
    ∧ rowString (rowFields C r) = joinSep "," (rowFields C r)
    ∧ (rowFields C r).length = C
    ∧ (rowFields C r)[c - 1]? = some ("data_" ++ toString c ++ "_" ++ toString r) :=
  ⟨outputLines_getElem? hr1 hr2, rowString_of_clean (rowFields_clean C r),
   rowFields_length C r, rowFields_getElem? hc1 hc2⟩

theorem C2_data_cell_content_witness :
    (outputLines 3 2)[2]? = some "data_1_2,data_2_2" := by
  have h := (C2_data_cell_content 3 2 2 1 (by decide) (by decide) (by decide) (by decide)).1
  rw [h]
  decide

/-- C3: the run creates the marker file iff no write of the output file
raised an I/O error; on such an error neither the marker file nor stdout
is touched; and in the event trace of a successful run the output file is
closed (index `R + 2`) strictly before the marker file is opened (index
`R + 4`). -/
theorem C3_marker_iff_success (R C : Nat) (linesep : String) (err : Option Nat)
    (fs : FSState) :
    ((runGen R C linesep err fs).2 = true ↔ ∀ k, err = some k → R < k)
    ∧ ((runGen R C linesep err fs).2 = true →
        (runGen R C linesep err fs).1.marker = some (markerContent linesep))
    ∧ ((runGen R C linesep err fs).2 = false →
        (runGen R C linesep err fs).1.marker = fs.marker
          ∧ (runGen R C linesep err fs).1.printed = fs.printed)
    ∧ firstPos isCloseOut (trace R C) = some (R + 2)
    ∧ firstPos isOpenMarker (trace R C) = some (R + 4)
    ∧ R + 2 < R + 4 := by
  refine ⟨?_, ?_, ?_, firstPos_closeOut R C, firstPos_openMarker R C, by omega⟩
  · cases err with
    | none => simp [runGen]
    | some k =>
      by_cases hk : k ≤ R
      · simp [runGen, hk]
        try omega
      · simp [runGen, hk]
        try omega
  · cases err with
    | none => intro _; rfl
    | some k =>
      by_cases hk : k ≤ R
      · intro h
        simp [runGen, hk] at h
      · intro _
        simp [runGen, hk, runOk]
  · cases err with
    | none => intro h; simp [runGen] at h
    | some k =>
      by_cases hk : k ≤ R
      · intro _
        simp [runGen, hk]
      · intro h
        simp [runGen, hk] at h

theorem C3_marker_iff_success_witness :
    (runGen 3 2 "\n" none ⟨none, none, []⟩).1.marker = some (markerContent "\n") :=
  (C3_marker_iff_success 3 2 "\n" none ⟨none, none, []⟩).2.1 (by decide)

/-- C4 counterexample: in the event trace at `R = 3, C = 2` there is
exactly one print event and one marker-open event, and the marker open
does not precede the print: the script prints the success message (line
17, index 6 of the trace) before it opens the marker file (line 20,
index 7), contradicting the spec's step order 6-then-7. -/
theorem C4_counterexample :
    (trace 3 2).countP isOpenMarker = 1
    ∧ (trace 3 2).countP isPrintMsg = 1
    ∧ ¬ ∃ i j, firstPos isOpenMarker (trace 3 2) = some i
        ∧ firstPos isPrintMsg (trace 3 2) = some j ∧ i < j := by
  refine ⟨by decide, by decide, ?_⟩
  rintro ⟨i, j, hi, hj, hij⟩
  rw [firstPos_openMarker 3 2] at hi
  rw [firstPos_printMsg 3 2] at hj
  injection hi with hi'
  injection hj with hj'
  omega

/-- C4 amended: in every run trace the print of the success message (the
only print event, at index `R + 3`) occurs strictly before the marker
file is opened (index `R + 4`): the script performs the spec's step 7
before its step 6. -/
theorem C4_print_before_marker (R C : Nat) :
    firstPos isPrintMsg (trace R C) = some (R + 3)
    ∧ firstPos isOpenMarker (trace R C) = some (R + 4)
    ∧ R + 3 < R + 4 :=
  ⟨firstPos_printMsg R C, firstPos_openMarker R C, by omega⟩

/-- C5 counterexample: at `R = 0, C = 1` the output file equals its lines
terminated with CRLF and differs from its lines terminated with `"\n"`,
the platform-appropriate terminator of POSIX platforms: the writer's
terminator is not the platform's. -/
theorem C5_counterexample :
    outputFile 0 1 = outputFileWithTerminator "\r\n" 0 1
    ∧ outputFile 0 1 ≠ outputFileWithTerminator "\n" 0 1 := by
  constructor <;> decide

/-- C5 amended: every line of the output file, header and data rows
alike, is terminated with CRLF (`"\r\n"`) — the csv writer's fixed
terminator, written untranslated because the file is opened with
`newline=''` — on every platform, and no line contains a CR or LF, so
this terminator is used consistently for every row. -/
theorem C5_crlf_terminators (R C : Nat) :
    outputFile R C = outputFileWithTerminator "\r\n" R C
    ∧ (∀ l ∈ outputLines R C, ∀ c ∈ l.data, c ≠ '\r' ∧ c ≠ '\n') :=
  ⟨outputFile_eq_terminated R C,
   fun l hl c hc => ⟨(outputLines_chars R C l hl c hc).2.1,
     (outputLines_chars R C l hl c hc).2.2⟩⟩

theorem C5_crlf_terminators_witness :
    outputFile 1 1 = outputFileWithTerminator "\r\n" 1 1 :=
  (C5_crlf_terminators 1 1).1

/-- C6: the marker file's path is the output file path with `.done`
appended (for the configured constants, `1000000_large_test.csv.done`),
and its on-disk content is exactly `CSV generation completed.` followed
by one line terminator and nothing else, whatever the platform's line
separator is. -/
theorem C6_marker_path_content (p linesep : String) :
    markerPath p = p ++ ".done"
    ∧ markerPath (outputPath num_rows) = "1000000_large_test.csv.done"
    ∧ markerContent linesep = "CSV generation completed." ++ linesep :=
  ⟨rfl, by decide, markerContent_eq linesep⟩

/-- C7: a run is deterministic — the contents written to the output and
marker files do not depend on the pre-existing file-system state — and
idempotent: a second run with the same configuration overwrites both
files with byte-identical content. -/
theorem C7_idempotent (R C : Nat) (linesep : String) (fs fs' : FSState) :
    ((runGen R C linesep none fs).1.output = (runGen R C linesep none fs').1.output
      ∧ (runGen R C linesep none fs).1.marker = (runGen R C linesep none fs').1.marker)
    ∧ (runGen R C linesep none ((runGen R C linesep none fs).1)).1.output
        = (runGen R C linesep none fs).1.output
    ∧ (runGen R C linesep none ((runGen R C linesep none fs).1)).1.marker
        = (runGen R C linesep none fs).1.marker :=
  ⟨⟨rfl, rfl⟩, rfl, rfl⟩

/-- C8: with `R = 0` the output file consists of the header line alone
(with its terminator), and an error-free run still creates the marker
file with its fixed content. -/
theorem C8_zero_rows (C : Nat) (linesep : String) (fs : FSState) :
    outputLines 0 C = [rowString (columns C)]
    ∧ outputFile 0 C = rowString (columns C) ++ "\r\n"
    ∧ (runGen 0 C linesep none fs).2 = true
    ∧ (runGen 0 C linesep none fs).1.marker = some (markerContent linesep) := by
  refine ⟨?_, ?_, rfl, rfl⟩
  · unfold outputLines
    simp
  · show concatAll (writesList 0 C) = _
    rw [writesList]
    simp only [List.range', List.map_nil]
    show writeRow (columns C) ++ "" = _
    rw [String.append_empty, writeRow]

/-- C9: concrete scenario `R = 3, C = 2`: the output file is exactly the
four lines `col1,col2`, `data_1_1,data_2_1`, `data_1_2,data_2_2`,
`data_1_3,data_2_3` in that order, and the marker content is
`CSV generation completed.` with one terminator. -/
theorem C9_concrete_3_2 :
    outputLines 3 2 = ["col1,col2", "data_1_1,data_2_1",
      "data_1_2,data_2_2", "data_1_3,data_2_3"]
    ∧ outputFile 3 2 =
        "col1,col2\r\ndata_1_1,data_2_1\r\ndata_1_2,data_2_2\r\ndata_1_3,data_2_3\r\n"
    ∧ markerContent "\n" = "CSV generation completed.\n" :=
  ⟨by decide, by decide, by decide⟩

/-- C10: no header label and no data cell contains a comma, double
quote, CR or LF, so the csv writer never quotes a field, every line is
the plain comma-separated join of its fields, and no double-quote
character appears anywhere in the output file. -/
theorem C10_no_quoting (R C : Nat) :
    (∀ f ∈ columns C, needsQuote f = false)
    ∧ (∀ r, ∀ f ∈ rowFields C r, needsQuote f = false)
    ∧ rowString (columns C) = joinSep "," (columns C)
    ∧ (∀ r, rowString (rowFields C r) = joinSep "," (rowFields C r))
    ∧ (∀ c ∈ (outputFile R C).data, c ≠ '"') := by
  refine ⟨fun f hf => needsQuote_eq_false (columns_clean C f hf),
    fun r f hf => needsQuote_eq_false (rowFields_clean C r f hf),
    rowString_of_clean (columns_clean C),
    fun r => rowString_of_clean (rowFields_clean C r), ?_⟩
  intro c hc
  rw [outputFile, writesList_eq_map] at hc
  rcases mem_concatAll hc with ⟨s, hs, hcs⟩
  rcases List.mem_map.mp hs with ⟨l, hl, rfl⟩
  rw [String.data_append] at hcs
  rcases List.mem_append.mp hcs with h | h
  · exact (outputLines_chars R C l hl c h).1
  · exact (by decide : ∀ c ∈ ("\r\n").data, c ≠ '"') c h

theorem C10_no_quoting_witness : needsQuote "col1" = false :=
  (C10_no_quoting 1 1).1 "col1" (by decide)

end GenerateLargeCsv
